import Mathlib

/-
Verification of the NIC telemetry collection engine of smc-exporter
(src/collector/nic-module.go, the current version of the file).

Modelling conventions:
- Go float64 values are modelled as rationals; every numeric value the
  verified properties depend on (enumeration codes, bit rates, lane
  values, the -1 sentinel) is exactly representable, so no rounding
  behaviour is relied upon.
- Go strings are modelled as Lean strings.  All bus addresses, JSON keys
  and tool messages in scope are ASCII, so Go byte indexing coincides
  with character indexing.  Lean strings are always valid Unicode, hence
  the model of utf8.ValidString is constantly true: the invalid-byte
  branch of the source is unreachable on representable inputs and is
  noted where relevant.
- strconv.ParseFloat is modelled on its plain decimal fragment
  (optional sign, digits, optional fractional part).  Every input the
  claims exercise is either in this fragment or rejected by both the
  model and the source.
- The gjson result tree is modelled by an inductive JSON value; a
  missing result is Option.none.  Numeric leaves of the diagnostic tool
  output are emitted by the tool as JSON strings and are modelled as
  string leaves, for which gjson String and Float agree with the model.
  gjson String of composite values returns raw JSON text, which never
  parses as a number nor matches a lookup table, so it is modelled as
  the empty string.
- A Go runtime panic (out-of-range index, make with negative length) is
  modelled as Option.none of the enclosing function.
-/

/- Model of strings.TrimSpace restricted to ASCII whitespace. -/
def goTrimSpace (s : String) : String :=
  String.mk (((s.toList.dropWhile Char.isWhitespace).reverse.dropWhile Char.isWhitespace).reverse)

/- Digit list to natural number. -/
def digitsToNat (ds : List Char) : ℕ :=
  ds.foldl (fun a c => a * 10 + (c.toNat - 48)) 0

/- Model of strconv.ParseFloat on the decimal fragment: optional sign,
integer digits, optional dot and fraction digits, at least one digit in
total.  Returns none exactly when Go returns a non-nil error on this
fragment. -/
def goParseFloat? (s : String) : Option ℚ :=
  let cs := s.toList
  let signNeg : Bool := cs.head? = some '-'
  let rest : List Char :=
    if cs.head? = some '-' ∨ cs.head? = some '+' then cs.tail else cs
  let intPart := rest.takeWhile Char.isDigit
  let rest2 := rest.dropWhile Char.isDigit
  match rest2 with
  | [] =>
      if intPart.isEmpty then none
      else
        let m : Int := digitsToNat intPart
        some (mkRat (if signNeg then -m else m) 1)
  | '.' :: r3 =>
      let fracPart := r3.takeWhile Char.isDigit
      let r4 := r3.dropWhile Char.isDigit
      if r4.isEmpty ∧ ¬(intPart.isEmpty ∧ fracPart.isEmpty) then
        let m : Int :=
          (digitsToNat intPart : Int) * 10 ^ fracPart.length + (digitsToNat fracPart : Int)
        some (mkRat (if signNeg then -m else m) (10 ^ fracPart.length))
      else none
  | _ => none

/- Model of strings.Split with a one-character separator (the source
only splits on a comma).  Like Go, the empty string yields one empty
field. -/
def splitOnChar (sep : Char) : List Char → List (List Char)
  | [] => [[]]
  | c :: cs =>
      let r := splitOnChar sep cs
      if c = sep then [] :: r
      else
        match r with
        | h :: t => (c :: h) :: t
        | [] => [[c]]

def goSplitComma (s : String) : List String :=
  (splitOnChar ',' s.toList).map String.mk

/- Model of splitting a gjson path on dots.  The source concatenates a
dynamic Module Info key into a dot-separated gjson path, so a dot
inside the key splits the key into several path components there. -/
def goSplitDot (s : String) : List String :=
  (splitOnChar '.' s.toList).map String.mk

/- Occurrence search used to model strings.Contains: does pat occur as a
contiguous run of cs. -/
def goContainsAux (pat : List Char) : List Char → Bool
  | [] => pat.isEmpty
  | c :: cs => pat.isPrefixOf (c :: cs) || goContainsAux pat cs

/- Model of strings.Contains. -/
def goContains (s sub : String) : Bool :=
  goContainsAux sub.toList s.toList

/- Model of strings.TrimSuffix with the one-character suffix used by the
source. -/
def goTrimTrailing (s : String) (c : Char) : String :=
  match s.toList.getLast? with
  | some lastChar => if lastChar = c then String.mk s.toList.dropLast else s
  | none => s

/- Model of utf8.ValidString.  Lean strings only represent valid
Unicode, so the predicate is constantly true on representable inputs;
the source branch taken on invalid bytes is unrepresentable here. -/
def utf8ValidString (_ : String) : Bool := true

/- Model of the first maximal run matched by the value-extraction
pattern of the source (one or more of digit, dot, comma, minus).
FindStringSubmatch returns nil exactly when no such character occurs. -/
def isValuesChar (c : Char) : Bool :=
  c.isDigit || c = '.' || c = ',' || c = '-'

def findValuesRun (s : String) : Option String :=
  let rest := s.toList.dropWhile (fun c => !isValuesChar c)
  if rest.isEmpty then none
  else some (String.mk (rest.takeWhile isValuesChar))

/- The list of characters after the first occurrence of pat, if pat
occurs. -/
def afterFirstOcc (pat : List Char) : List Char → Option (List Char)
  | [] => if pat.isEmpty then some [] else none
  | c :: cs =>
      if pat.isPrefixOf (c :: cs) then some ((c :: cs).drop pat.length)
      else afterFirstOcc pat cs

/- The list of characters before the last occurrence of pat, if pat
occurs (pat nonempty in all uses). -/
def beforeLastOcc (pat : List Char) : List Char → Option (List Char)
  | [] => if pat.isEmpty then some [] else none
  | c :: cs =>
      match beforeLastOcc pat cs with
      | some pre => some (c :: pre)
      | none => if pat.isPrefixOf (c :: cs) then some [] else none

/- Model of the attenuation-key speed capture of the source: the Go
pattern matches at the leftmost occurrence of the opening literal and
its greedy group extends to the last later occurrence of the closing
literal.  None exactly when the pattern does not match. -/
def findAttenSpeedsCapture (s : String) : Option String :=
  match afterFirstOcc "Attenuation (".toList s.toList with
  | none => none
  | some suf => (beforeLastOcc ") [dB]".toList suf).map String.mk

/- Model of the gjson result tree.  none at use sites stands for a
nonexistent result. -/
inductive Json where
  | null : Json
  | str : String → Json
  | arr : List Json → Json
  | obj : List (String × Json) → Json

/- gjson object member access: first matching key, as gjson Get does. -/
def objGetFirst (kvs : List (String × Json)) (k : String) : Option Json :=
  (kvs.find? (fun p => p.1 = k)).map (fun p => p.2)

def jget1 : Json → String → Option Json
  | .obj kvs, k => objGetFirst kvs k
  | _, _ => none

/- gjson Get along a dot-separated path, given as its list of
components (every key of the source paths is dot-free). -/
def jget : Json → List String → Option Json
  | j, [] => some j
  | j, k :: ks =>
      match jget1 j k with
      | some j2 => jget j2 ks
      | none => none

def optGet (o : Option Json) (ks : List String) : Option Json :=
  match o with
  | some j => jget j ks
  | none => none

/- gjson Result.String of a possibly missing result: the string itself
for a string leaf, empty otherwise (see the modelling conventions on
composite values).  The source also reads the Str field directly, which
coincides with String on this model. -/
def gjString (o : Option Json) : String :=
  match o with
  | some (.str s) => s
  | _ => ""

/- gjson Result.Float of a possibly missing result: parse a string
leaf, with 0 on a parse error or a missing result. -/
def gjFloat (o : Option Json) : ℚ :=
  (goParseFloat? (gjString o)).getD 0

/- gjson Result.Array: the elements of an array, empty on null or
missing, the singleton of the value otherwise. -/
def gjArray (o : Option Json) : List Json :=
  match o with
  | some (.arr l) => l
  | some .null => []
  | some v => [v]
  | none => []

/- gjson Result.Map: key-value pairs of an object result, empty
otherwise. -/
def jmapPairs (o : Option Json) : List (String × Json) :=
  match o with
  | some (.obj kvs) => kvs
  | _ => []

/- Size of the Go map built from the pairs (later duplicate keys
overwrite earlier ones). -/
def jmapSize (kvs : List (String × Json)) : ℕ :=
  ((kvs.map Prod.fst).dedup).length

/- Go map lookup on the built map: last occurrence wins; none models
the zero gjson result of a missing key. -/
def jmapGet (kvs : List (String × Json)) (k : String) : Option Json :=
  ((kvs.filter (fun p => p.1 = k)).getLast?).map (fun p => p.2)

/- gjson @keys of an object result, in document order. -/
def objKeys (o : Option Json) : List String :=
  (jmapPairs o).map Prod.fst

/- Lookup tables of the source, as association lists with Go map
lookup. -/
def stateValues : List (String × ℚ) :=
  [("Disable", 0), ("Port PLL Down", 1), ("Polling", 2), ("Active", 3),
   ("Close port", 4), ("Physical LinkUp", 5), ("Sleep", 6), ("Rx disable", 7),
   ("Signal detect", 8), ("Receiver detect", 9), ("Sync peer", 10),
   ("Negotiation", 11), ("Training", 12), ("SubFSM active", 13)]

def speed2bps : List (String × ℚ) :=
  [("IB-SDR", 10000000000), ("IB-DDR", 20000000000), ("IB-QDR", 40000000000),
   ("IB-FDR10", 40000000000), ("IB-FDR", 56000000000), ("IB-EDR", 100000000000),
   ("IB-HDR", 200000000000), ("IB-NDR", 400000000000), ("IB-XDR", 800000000000),
   ("BaseTx100M", 100000000), ("BaseT1000M", 1000000000), ("BaseT10M", 10000000),
   ("CX", 1000000000), ("KX", 1000000000), ("CX4", 10000000000),
   ("KX4", 10000000000), ("BaseT10G", 10000000000), ("10GbE", 10000000000),
   ("20GbE", 20000000000), ("25GbE", 25000000000), ("40GbE", 40000000000),
   ("50GbE", 50000000000), ("56GbE", 56000000000), ("100GbE", 100000000000),
   ("100M", 100000000), ("1G", 1000000000), ("2.5G", 2500000000),
   ("5G", 5000000000), ("10G", 10000000000), ("40G", 40000000000),
   ("25G", 25000000000), ("50G", 50000000000), ("100G", 100000000000),
   ("200G", 200000000000), ("400G", 400000000000), ("800G", 800000000000),
   ("10M", 10000000)]

def physicalStateValues : List (String × ℚ) :=
  [("Disabled", 0), ("Initializing", 1), ("Recover Config", 2),
   ("Config Test", 3), ("Wait Remote Test", 4), ("Wait Config Enhanced", 5),
   ("Config Idle", 6), ("LinkUp", 7), ("ETH_AN_FSM_ENABLE", 10),
   ("ETH_AN_FSM_XMIT_DISABLE", 11), ("ETH_AN_FSM_ABILITY_DETECT", 12),
   ("ETH_AN_FSM_ACK_DETECT", 13), ("ETH_AN_FSM_COMPLETE_ACK", 14),
   ("ETH_AN_FSM_AN_GOOD_CHECK", 15), ("ETH_AN_FSM_NEXT_PAGE_WAIT", 17),
   ("ETH_AN_FSM_LINK_STAT_CHECK", 18), ("ETH_AN_FSM_EXTRA_TUNE", 9),
   ("ETH_AN_FSM_FIX_REVERSALS", 10), ("ETH_AN_FSM_IB_FAIL", 11),
   ("ETH_AN_FSM_POST_LOCK_TUNE", 12)]

def moduleStateValues : List (String × ℚ) :=
  [("N/A", 0), ("LowPwr state", 1), ("PwrUp state", 2), ("Ready state", 3),
   ("PwrDn state", 4), ("Fault state", 5)]

def dataPathStateValues : List (String × ℚ) :=
  [("N/A", 0), ("DPDeactivated", 1), ("DPInit", 2), ("DPDeinit", 3),
   ("DPActivated", 4), ("DPTxTurnOn", 5), ("DPTxTurnOff", 6),
   ("DPInitialized", 7)]

/- Go map read with comma-ok: the value when the key is present. -/
def tableLookup (t : List (String × ℚ)) (k : String) : Option ℚ :=
  (t.find? (fun p => p.1 = k)).map (fun p => p.2)

structure SlotInfo where
  Designation : String
  BusAddress : String
  SlotNumber : String
deriving DecidableEq

structure DeviceInfo where
  pciAddress : String := ""
  mode : String := ""
  caName : String := ""
  netDev : String := ""
  pkey : String := ""
deriving DecidableEq

/- The loop body of Slots.getSlot: first slot whose bus address equals
the normalized address; empty string when unmatched. -/
def getSlotGo : List SlotInfo → String → String
  | [], _ => ""
  | si :: rest, slotAddress =>
      if si.BusAddress = slotAddress then
        if utf8ValidString si.SlotNumber then si.SlotNumber else "unknown"
      else getSlotGo rest slotAddress

/- Model of Slots.getSlot: the source replaces the final byte of the
bus address by the digit zero before matching; slicing an empty address
panics (modelled as none). -/
def getSlot (slots : List SlotInfo) (pciAddress : String) : Option String :=
  if pciAddress.toList = [] then none
  else some (getSlotGo slots (String.mk (pciAddress.toList.dropLast ++ ['0'])))

structure PortMetrics where
  mode : String := ""
  caname : String := ""
  netdev : String := ""
  serial : String := ""
  hostname : String := ""
  systemserial : String := ""
  vendor : String := ""
  partNumber : String := ""
  slot : String := ""
  port : String := ""
  pkey : String := ""
  state : ℚ := 0
  physicalState : ℚ := 0
  moduleState : ℚ := 0
  dataPathState : List ℚ := []
  speed : ℚ := 0
  width : ℚ := 0
  biasCurrent : List ℚ := []
  temperature : ℚ := 0
  voltage : ℚ := 0
  wavelength : ℚ := 0
  transferDistance : ℚ := 0
  rxPower : List ℚ := []
  txPower : List ℚ := []
  snrMedia : List ℚ := []
  snrHost : List ℚ := []
  attenuation : List (String × ℚ) := []
  effectiveBer : ℚ := 0
  effectiveErrors : ℚ := 0
  rawBer : ℚ := 0
  rawErrors : List ℚ := []
  fecErrors : List ℚ := []
  symbolBer : ℚ := 0
  symbolErrors : ℚ := 0
  linkDown : ℚ := 0
  linkRecovery : ℚ := 0
  lastClearTime : ℚ := 0
deriving DecidableEq

/- Model of parseFloats of the source: split on commas, trim each part,
parse each part; any parse error yields the empty list and false. -/
def parseFloats (s : String) : List ℚ × Bool :=
  let parts := goSplitComma s
  let vals := parts.map (fun p => goParseFloat? (goTrimSpace p))
  if vals.all Option.isSome then (vals.map (fun v => v.getD 0), true)
  else ([], false)

def parseSpeeds (s : String) : List String :=
  goSplitComma s

/- Go map assignment on the attenuation map, modelled on an association
list: overwrite an existing key, otherwise append. -/
def mapInsert (m : List (String × ℚ)) (k : String) (v : ℚ) : List (String × ℚ) :=
  if m.any (fun p => p.1 = k) then
    m.map (fun p => if p.1 = k then (k, v) else p)
  else m ++ [(k, v)]

/- The inner loop of the copper branch: for each value index below the
speed count, assign the value under the positionally matching speed. -/
def insertAllAtt (acc : List (String × ℚ)) (speeds : List String) (values : List ℚ) :
    List (String × ℚ) :=
  (speeds.zip values).foldl (fun m kv => mapInsert m kv.1 kv.2) acc

def attenSpeedsOf (key : String) : List String :=
  match findAttenSpeedsCapture key with
  | some cap => parseSpeeds cap
  | none => []

/- One iteration of the copper attenuation loop of parseOutput for one
module key.  The source concatenates the key into a dot-separated gjson
path, so the lookup walks the dot-split components of the key: a key
containing a dot is split there and the lookup finds nothing. -/
def attenStep (mlxout : Json) (acc : List (String × ℚ)) (key : String) :
    List (String × ℚ) :=
  if "Attenuation".toList.isPrefixOf key.toList then
    insertAllAtt acc (attenSpeedsOf key)
      (parseFloats (gjString (jget mlxout
        (["result", "output", "Module Info"] ++ goSplitDot key)))).1
  else acc

/- Element one of the values array of the bin named after index i in
the bin map (none when the bin name is missing or the array is too
short, which makes the source index out of range). -/
def fecBinElem (bins : List (String × Json)) (i : ℕ) : Option Json :=
  (gjArray (optGet (jmapGet bins ("Bin " ++ toString i)) ["values"])).get? 1

/- The value the source records for one existing bin element: the
parsed number, or -1 when it does not parse. -/
def fecBinParsed (v : Json) : ℚ :=
  match goParseFloat? (gjString (some v)) with
  | none => -1
  | some x => x

/- The value the source records for bin i when its element exists. -/
def fecBinValue (bins : List (String × Json)) (i : ℕ) : ℚ :=
  match fecBinElem bins i with
  | some v => fecBinParsed v
  | none => 0

/- The FEC histogram block of parseOutput.  The input is the result at
the histogram path (none when absent).  Mirrors the source exactly:
absent leaves the initial empty array; present takes the bin map, sets
numBins to its size minus one, allocates (a negative size panics:
none), and fills index i from element one of the values array of the
bin named after i, with -1 when that element does not parse as a
number; a missing bin name or a short values array indexes out of
range (none). -/
def parseFecErrors (histo : Option Json) : Option (List ℚ) :=
  match histo with
  | none => some []
  | some hj =>
      let bins := jmapPairs (some hj)
      let sz := jmapSize bins
      if sz = 0 then none
      else
        (List.range (sz - 1)).mapM (fun i =>
          match fecBinElem bins i with
          | none => none
          | some v => some (fecBinParsed v))

/- The per-lane value list the optical branch extracts from a Module
Info field: the first value run of its text, parsed; empty when the
run is absent or does not fully parse. -/
def opticalLanes (mlxout : Json) (field : String) : List ℚ :=
  match findValuesRun (gjString (jget mlxout ["result", "output", "Module Info", field])) with
  | some run => (parseFloats run).1
  | none => []

/- The scalar value the optical branch extracts from a Module Info
field: the first value run of its text, parsed, zero on failure or
absence. -/
def opticalScalar (mlxout : Json) (field : String) : ℚ :=
  match findValuesRun (gjString (jget mlxout ["result", "output", "Module Info", field])) with
  | some run => (goParseFloat? run).getD 0
  | none => 0

/- The per-lane data-path state codes of the optical branch. -/
def opticalDataPath (mlxout : Json) : List ℚ :=
  (gjArray (jget mlxout
    ["result", "output", "Module Info", "DataPath state [per lane]", "values"])).map
    (fun v => (tableLookup dataPathStateValues (gjString (some v))).getD 0)

/- The attenuation map the copper branch builds over all Module Info
keys. -/
def copperAttenuation (mlxout : Json) : List (String × ℚ) :=
  (objKeys (jget mlxout ["result", "output", "Module Info"])).foldl (attenStep mlxout) []

/- Model of parseOutput of the source, statement by statement.  The
result is none exactly when the source panics (only possible inside the
FEC histogram block). -/
def parseOutput (mlxout : Json) (hostname systemserial slot port : String)
    (device : DeviceInfo) : Option PortMetrics :=
  let state := gjString (jget mlxout ["result", "output", "Operational Info", "State"])
  let stateVal := (tableLookup stateValues state).getD 0
  let physicalState :=
    gjString (jget mlxout ["result", "output", "Operational Info", "Physical state"])
  let physicalStateVal := (tableLookup physicalStateValues physicalState).getD 0
  let speed := gjString (jget mlxout ["result", "output", "Operational Info", "Speed"])
  let speedVal := (tableLookup speed2bps speed).getD 0
  let formattedWidth :=
    gjString (jget mlxout ["result", "output", "Operational Info", "Width"])
  let widthVal := (goParseFloat? (goTrimTrailing formattedWidth 'x')).getD 0
  let serialRaw :=
    gjString (jget mlxout ["result", "output", "Module Info", "Vendor Serial Number"])
  let serial := if utf8ValidString serialRaw then serialRaw else "unknown"
  let vendor := gjString (jget mlxout ["result", "output", "Module Info", "Vendor Name"])
  let partNumber :=
    gjString (jget mlxout ["result", "output", "Module Info", "Vendor Part Number"])
  let moduleState :=
    gjString (jget mlxout ["result", "output", "Module Info", "Module State"])
  let moduleStateVal := (tableLookup moduleStateValues moduleState).getD 0
  let cableTypeValue :=
    gjString (jget mlxout ["result", "output", "Module Info", "Cable Type"])
  let cableType : String :=
    if goContains cableTypeValue "Optic" then "optical"
    else if goContains cableTypeValue "Copper" || goContains cableTypeValue "copper" then
      "copper"
    else ""
  let temperature :=
    gjString (jget mlxout ["result", "output", "Module Info", "Temperature [C]"])
  let temperatureVal :=
    match findValuesRun temperature with
    | some run => (goParseFloat? run).getD 0
    | none => 0
  let snrMediaPerLane :=
    gjArray (jget mlxout ["result", "output", "Module Info", "SNR Media Lanes [dB]", "values"])
  let snrMedia :=
    if snrMediaPerLane.length ≠ 1 ∨ gjString (snrMediaPerLane.get? 0) ≠ "N/A" then
      snrMediaPerLane.map (fun v => gjFloat (some v))
    else []
  let snrHostPerLane :=
    gjArray (jget mlxout ["result", "output", "Module Info", "SNR Host Lanes [dB]", "values"])
  let snrHost :=
    if snrHostPerLane.length ≠ 1 ∨ gjString (snrHostPerLane.get? 0) ≠ "N/A" then
      snrHostPerLane.map (fun v => gjFloat (some v))
    else []
  let dataPathState :=
    if cableType = "optical" then opticalDataPath mlxout else []
  let rxPower :=
    if cableType = "optical" then opticalLanes mlxout "Rx Power Current [dBm]" else []
  let txPower :=
    if cableType = "optical" then opticalLanes mlxout "Tx Power Current [dBm]" else []
  let biasCurrent :=
    if cableType = "optical" then opticalLanes mlxout "Bias Current [mA]" else []
  let voltage :=
    if cableType = "optical" then opticalScalar mlxout "Voltage [mV]" else 0
  let wavelength :=
    if cableType = "optical" then opticalScalar mlxout "Wavelength [nm]" else 0
  let attenuation :=
    if cableType = "copper" then copperAttenuation mlxout else []
  let effectiveBer :=
    gjFloat (jget mlxout
      ["result", "output", "Physical Counters and BER Info", "Effective Physical BER"])
  let effectiveErrors :=
    gjFloat (jget mlxout
      ["result", "output", "Physical Counters and BER Info", "Effective Physical Errors"])
  let rawBer :=
    gjFloat (jget mlxout
      ["result", "output", "Physical Counters and BER Info", "Raw Physical BER"])
  let rawErrors :=
    (gjArray (jget mlxout
      ["result", "output", "Physical Counters and BER Info",
       "Raw Physical Errors Per Lane", "values"])).map (fun v => gjFloat (some v))
  let symbolBer :=
    if device.mode = "infiniband" then
      gjFloat (jget mlxout
        ["result", "output", "Physical Counters and BER Info", "Symbol BER"])
    else 0
  let symbolErrors :=
    if device.mode = "infiniband" then
      gjFloat (jget mlxout
        ["result", "output", "Physical Counters and BER Info", "Symbol Errors"])
    else 0
  let linkDown :=
    if device.mode = "infiniband" then
      gjFloat (jget mlxout
        ["result", "output", "Physical Counters and BER Info", "Link Down Counter"])
    else 0
  let linkRecovery :=
    if device.mode = "infiniband" then
      gjFloat (jget mlxout
        ["result", "output", "Physical Counters and BER Info", "Link Error Recovery Counter"])
    else 0
  let lastClearTime :=
    gjFloat (jget mlxout
      ["result", "output", "Physical Counters and BER Info",
       "Time Since Last Clear [Min]"]) * 60
  match parseFecErrors (jget mlxout ["result", "output", "Histogram of FEC Errors"]) with
  | none => none
  | some fec =>
      some
        { mode := device.mode, caname := device.caName, netdev := device.netDev,
          pkey := device.pkey, hostname := hostname, systemserial := systemserial,
          slot := slot, port := port,
          state := stateVal, physicalState := physicalStateVal, speed := speedVal,
          width := widthVal, serial := serial, vendor := vendor,
          partNumber := partNumber, moduleState := moduleStateVal,
          dataPathState := dataPathState, biasCurrent := biasCurrent,
          temperature := temperatureVal, voltage := voltage,
          wavelength := wavelength, rxPower := rxPower, txPower := txPower,
          snrMedia := snrMedia, snrHost := snrHost, attenuation := attenuation,
          effectiveBer := effectiveBer, effectiveErrors := effectiveErrors,
          rawBer := rawBer, rawErrors := rawErrors, fecErrors := fec,
          symbolBer := symbolBer, symbolErrors := symbolErrors,
          linkDown := linkDown, linkRecovery := linkRecovery,
          lastClearTime := lastClearTime }

structure RunMlxlinkResponse where
  result : PortMetrics
  error : Bool
deriving DecidableEq

/- Model of runMlxlink for one adapter.  The tool invocation itself is
external: its parsed combined output and the exit status are the
inputs.  cmdFailed is true when the tool exited non-zero.  The outer
Option is the panic marker propagated from parseOutput. -/
def runMlxlink (hostname systemserial slot port : String) (device : DeviceInfo)
    (mlxout : Json) (cmdFailed : Bool) : Option RunMlxlinkResponse :=
  let statusMessage := gjString (jget mlxout ["status", "message"])
  let validOutput :=
    !cmdFailed ||
      goContains statusMessage "FEC Histogram is valid with active link operation only" ||
      goContains statusMessage "FEC Histogram is not supported for the current device"
  if validOutput then
    (parseOutput mlxout hostname systemserial slot port device).map
      (fun m => { result := m, error := false })
  else some { result := {}, error := true }

/- Model of the fan-in of UpdateMetrics (the loop over the response
channel): the argument is the list of the per-adapter responses in
arrival order, one per dispatched task; the published snapshot keeps
the results of the non-error responses, in arrival order. -/
def updateMetricsPublish (responses : List RunMlxlinkResponse) : List PortMetrics :=
  (responses.filter (fun r => !r.error)).map (fun r => r.result)

/- Model of the snapshot cache arbiter.  The arbiter goroutine of
manageCachedMetricsAccess serializes the channel operations; a history
of the cache is the sequence of serialized events. -/
inductive CacheEvent where
  | read : CacheEvent
  | write : List PortMetrics → CacheEvent

/- One arbiter step: a read leaves the state and answers with it, a
write replaces the state. -/
def cacheStep (st : List PortMetrics) : CacheEvent → List PortMetrics
  | .read => st
  | .write v => v

/- The cached snapshot after a serialized event history, starting from
the nil slice. -/
def cacheState (es : List CacheEvent) : List PortMetrics :=
  es.foldl cacheStep []

/- The snapshot a read serialized at position i returns: the state
after the events before it. -/
def readResult (es : List CacheEvent) (i : ℕ) : List PortMetrics :=
  cacheState (es.take i)

def writeVal : CacheEvent → Option (List PortMetrics)
  | .write v => some v
  | .read => none

/- The number of completed writes among the first i events. -/
def writesThrough (es : List CacheEvent) (i : ℕ) : ℕ :=
  ((es.take i).filterMap writeVal).length

/- Concrete inputs used by the concrete theorems and witnesses below.
jActiveEth is the diagnostic payload of an active 200G ethernet optical
port with four lanes, mirroring the shape of the tool output recorded
in the test data of the repository. -/
def devEth : DeviceInfo :=
  { pciAddress := "0000:1b:00.0", mode := "ethernet", caName := "mlx5_0",
    netDev := "eth0" }

def jActiveEth : Json :=
  .obj [("result", .obj [("output", .obj [
    ("Operational Info", .obj [
      ("State", .str "Active"),
      ("Physical state", .str "ETH_AN_FSM_ENABLE"),
      ("Speed", .str "200G"),
      ("Width", .str "4x")]),
    ("Module Info", .obj [
      ("Vendor Serial Number", .str "5C2410312895"),
      ("Vendor Name", .str "Firmus"),
      ("Vendor Part Number", .str "QSFP200I-SR4-5M"),
      ("Module State", .str "Ready state"),
      ("Cable Type", .str "Optical Module (separable)"),
      ("Temperature [C]", .str "41"),
      ("Bias Current [mA]", .str "7.640,8.100,7.740,8.180"),
      ("Rx Power Current [dBm]", .str "-3,-2,-1,0"),
      ("Tx Power Current [dBm]", .str "1,2,3,4"),
      ("Voltage [mV]", .str "3248.7"),
      ("Wavelength [nm]", .str "850"),
      ("DataPath state [per lane]", .obj [("values", .arr
        [.str "DPActivated", .str "DPActivated", .str "DPActivated",
         .str "DPActivated"])])])])])]

/- The same payload as produced when the tool exits non-zero because
the FEC histogram feature is unsupported: the status message carries
the tool explanation. -/
def jTolerated : Json :=
  .obj [("status", .obj [("message",
      .str "FEC Histogram is not supported for the current device")]),
    ("result", .obj [("output", .obj [
    ("Operational Info", .obj [
      ("State", .str "Active"),
      ("Physical state", .str "ETH_AN_FSM_ENABLE"),
      ("Speed", .str "200G"),
      ("Width", .str "4x")]),
    ("Module Info", .obj [
      ("Vendor Serial Number", .str "5C2410312895"),
      ("Cable Type", .str "Optical Module (separable)"),
      ("Bias Current [mA]", .str "7.640,8.100,7.740,8.180"),
      ("Rx Power Current [dBm]", .str "-3,-2,-1,0"),
      ("Tx Power Current [dBm]", .str "1,2,3,4")])])])]

/- A payload whose exit is non-zero for another reason. -/
def jHardFail : Json :=
  .obj [("status", .obj [("message", .str "No device found")])]

/- A present FEC histogram object with bin one malformed, and the
payload carrying it. -/
def fecPresentPairs : List (String × Json) :=
  [("header", .null),
   ("Bin 0", .obj [("values", .arr [.str "0-1", .str "123"])]),
   ("Bin 1", .obj [("values", .arr [.str "2-3", .str "abc"])]),
   ("Bin 2", .obj [("values", .arr [.str "4-7", .str "9"])])]

def jFecPresent : Json :=
  .obj [("result", .obj [("output", .obj [
    ("Histogram of FEC Errors", .obj fecPresentPairs)])])]

/- A payload whose FEC histogram is present but whose only bin has a
one-element values array: the source indexes element one of it. -/
def jFecShortValues : Json :=
  .obj [("result", .obj [("output", .obj [
    ("Histogram of FEC Errors", .obj [
      ("header", .null),
      ("Bin 0", .obj [("values", .arr [.str "5"])])])])])]

def wSlots : List SlotInfo :=
  [{ Designation := "PCIe Slot 38", BusAddress := "0000:1a:00.0", SlotNumber := "38" },
   { Designation := "PCIe Slot 40", BusAddress := "0000:1b:00.0", SlotNumber := "40" }]

def wResponses : List RunMlxlinkResponse :=
  [{ result := { slot := "40" }, error := false },
   { result := {}, error := true },
   { result := { slot := "38" }, error := false }]

/- Helper: the published successes and the failed responses partition
the response list. -/
theorem publish_length_add_err_length (rs : List RunMlxlinkResponse) :
    (updateMetricsPublish rs).length + (rs.filter (fun r => r.error)).length = rs.length := by
  unfold updateMetricsPublish
  rw [List.length_map]
  induction rs with
  | nil => rfl
  | cons r t ih =>
      cases h : r.error <;> simp [List.filter_cons, h] <;> omega

/-- C1: in one collection cycle, with K dispatched diagnostic tasks of
which M return a hard failure, the snapshot handed to the cache holds
exactly K - M records: the result of every successful response and of
nothing else.  The fan-in loop pulls exactly one response per task, so
the model is total in the response list: the cycle completes without
blocking on the failed tasks. -/
theorem updateMetrics_publishes_successes (rs : List RunMlxlinkResponse) (K M : ℕ)
    (hK : rs.length = K) (hM : (rs.filter (fun r => r.error)).length = M)
    (hMK : M < K) :
    (updateMetricsPublish rs).length = K - M ∧
    (∀ r ∈ rs, r.error = false → r.result ∈ updateMetricsPublish rs) ∧
    (∀ m ∈ updateMetricsPublish rs, ∃ r ∈ rs, r.error = false ∧ r.result = m) := by
  refine ⟨?_, ?_, ?_⟩
  · have h := publish_length_add_err_length rs
    omega
  · intro r hr he
    unfold updateMetricsPublish
    exact List.mem_map_of_mem _ (List.mem_filter.mpr ⟨hr, by simp [he]⟩)
  · intro m hm
    unfold updateMetricsPublish at hm
    rcases List.mem_map.mp hm with ⟨r, hr, hrm⟩
    rcases List.mem_filter.mp hr with ⟨hrs, herr⟩
    exact ⟨r, hrs, by simpa using herr, hrm⟩

theorem updateMetrics_publishes_successes_witness :
    (updateMetricsPublish wResponses).length = 3 - 1 ∧
    (∀ r ∈ wResponses, r.error = false → r.result ∈ updateMetricsPublish wResponses) ∧
    (∀ m ∈ updateMetricsPublish wResponses,
      ∃ r ∈ wResponses, r.error = false ∧ r.result = m) :=
  updateMetrics_publishes_successes wResponses 3 1 (by decide) (by decide) (by decide)

/-- C6 counterexample: in the list one comma-separated value of which
does not parse, the source does not default that entry to zero and keep
the siblings: it returns the empty list with a failure flag, so the
claimed per-entry result [1, 0, 3] is not produced. -/
theorem parseFloats_entry_default_counterexample :
    parseFloats "1,abc,3" = ([], false) ∧ ([] : List ℚ) ≠ [1, 0, 3] := by
  constructor
  · decide
  · decide

/-- C6 amended: an entry of a comma-separated value list that cannot be
parsed as a number causes parseFloats to drop the whole list for that
field (empty list, failure flag), not just that entry; when every entry
parses, the parsed entries are all returned in order.  The rest of the
record is unaffected either way, since the callers of parseFloats only
assign its result to the one field being decoded. -/
theorem parseFloats_bad_entry_drops_whole_list (s : String) :
    ((∃ p ∈ goSplitComma s, goParseFloat? (goTrimSpace p) = none) →
      parseFloats s = ([], false)) ∧
    ((∀ p ∈ goSplitComma s, (goParseFloat? (goTrimSpace p)).isSome) →
      parseFloats s =
        ((goSplitComma s).map (fun p => (goParseFloat? (goTrimSpace p)).getD 0), true)) := by
  constructor
  · rintro ⟨p, hp, hnone⟩
    unfold parseFloats
    have hall : ((goSplitComma s).map (fun p => goParseFloat? (goTrimSpace p))).all
        Option.isSome = false := by
      rw [Bool.eq_false_iff]
      intro hcontra
      rw [List.all_eq_true] at hcontra
      have := hcontra _ (List.mem_map_of_mem _ hp)
      rw [hnone] at this
      exact Bool.noConfusion this
    simp only [hall, Bool.false_eq_true, if_false]
  · intro hall
    unfold parseFloats
    have h2 : ((goSplitComma s).map (fun p => goParseFloat? (goTrimSpace p))).all
        Option.isSome = true := by
      rw [List.all_eq_true]
      intro o ho
      rcases List.mem_map.mp ho with ⟨p, hp, rfl⟩
      exact hall p hp
    simp only [h2, if_true, List.map_map]
    rfl

theorem parseFloats_bad_entry_drops_whole_list_witness :
    parseFloats "1,abc,3" = ([], false) ∧
    parseFloats " 1 , 2.5 ,3" = ([1, 5 / 2, 3], true) :=
  ⟨(parseFloats_bad_entry_drops_whole_list "1,abc,3").1 ⟨"abc", by decide, by decide⟩,
   ((parseFloats_bad_entry_drops_whole_list " 1 , 2.5 ,3").2 (by decide)).trans
     (by with_unfolding_all decide)⟩

/-- C3: on the fixed payload of an active 200G ethernet optical port
(State Active, Physical state ETH_AN_FSM_ENABLE, Speed 200G, four
comma-separated lane values), parseOutput produces state 3, physical
state 10, speed 200000000000 bits per second, and four-element bias
current, rx power and tx power arrays. -/
theorem parseOutput_active_200G_concrete :
    (parseOutput jActiveEth "host" "sys" "40" "1" devEth).map (fun m =>
      (m.state, m.physicalState, m.speed,
       m.biasCurrent.length, m.rxPower.length, m.txPower.length)) =
    some (3, 10, 200000000000, 4, 4, 4) := by
  set_option maxRecDepth 10000 in decide

/- Helper: two strings with equal character data are equal. -/
theorem stringDataEq {s t : String} (h : s.data = t.data) : s = t := by
  cases s
  cases t
  cases h
  rfl

/- Helper: an unmatched normalized address makes the getSlot loop fall
through to the empty string. -/
theorem getSlotGo_unmatched (slots : List SlotInfo) (a : String)
    (h : ∀ si ∈ slots, si.BusAddress ≠ a) : getSlotGo slots a = "" := by
  induction slots with
  | nil => rfl
  | cons si rest ih =>
      unfold getSlotGo
      rw [if_neg (h si (List.mem_cons_self si rest))]
      exact ih (fun x hx => h x (List.mem_cons_of_mem si hx))

/-- C7: the slot lookup normalizes the function number of the address
to function zero before matching, so the addresses of function zero and
function one of one physical port (which differ only in the final
digit) resolve to the same slot; an address matching no slot yields the
empty failure sentinel. -/
theorem getSlot_function_normalization (slots : List SlotInfo) (base : String) :
    getSlot slots (base ++ "0") = getSlot slots (base ++ "1") ∧
    ((∀ si ∈ slots, si.BusAddress ≠ base ++ "0") →
      getSlot slots (base ++ "0") = some "") := by
  have h0 : (base ++ "0").toList = base.data ++ ['0'] := by
    show (base ++ "0").data = _
    rw [String.data_append]
  have h1 : (base ++ "1").toList = base.data ++ ['1'] := by
    show (base ++ "1").data = _
    rw [String.data_append]
  have key : String.mk (base.data ++ ['0']) = base ++ "0" := by
    apply stringDataEq
    rw [String.data_append]
  unfold getSlot
  rw [if_neg (by rw [h0]; simp), if_neg (by rw [h1]; simp), h0, h1]
  rw [show (base.data ++ ['0']).dropLast = base.data by simp,
      show (base.data ++ ['1']).dropLast = base.data by simp]
  refine ⟨rfl, ?_⟩
  intro h
  rw [getSlotGo_unmatched]
  intro si hsi
  rw [key]
  exact h si hsi

theorem getSlot_function_normalization_witness :
    getSlot wSlots ("0000:1b:00." ++ "0") = getSlot wSlots ("0000:1b:00." ++ "1") ∧
    ((∀ si ∈ wSlots, si.BusAddress ≠ "0000:1b:00." ++ "0") →
      getSlot wSlots ("0000:1b:00." ++ "0") = some "") ∧
    getSlot wSlots ("0000:1b:00." ++ "1") = some "40" ∧
    getSlot [] ("0000:2b:00." ++ "0") = some "" :=
  ⟨(getSlot_function_normalization wSlots "0000:1b:00.").1,
   (getSlot_function_normalization wSlots "0000:1b:00.").2,
   by decide,
   (getSlot_function_normalization [] "0000:2b:00.").2 (by decide)⟩

/-- C8 counterexample: a payload with no Vendor Serial Number yields a
record whose serial label is the empty string, not the sentinel, so a
missing serial does not default to the sentinel. -/
theorem parseOutput_missing_serial_counterexample :
    (parseOutput (Json.obj []) "host" "sys" "40" "1" devEth).map
      (fun m => m.serial) = some "" ∧ "" ≠ "unknown" := by
  constructor
  · decide
  · decide

/-- C8 amended: the serial label equals the vendor serial string the
tool reports, in particular the empty string when it is missing; the
sentinel is substituted only when the reported text is not valid UTF-8
(not representable here, since the model strings are always valid, so
on every representable payload the reported text is passed through). -/
theorem parseOutput_serial_amended (hostname systemserial slot port : String)
    (device : DeviceInfo) (mlxout : Json) (m : PortMetrics)
    (hm : parseOutput mlxout hostname systemserial slot port device = some m) :
    m.serial =
      gjString (jget mlxout ["result", "output", "Module Info", "Vendor Serial Number"]) := by
  unfold parseOutput at hm
  cases hfec : parseFecErrors (jget mlxout ["result", "output", "Histogram of FEC Errors"]) with
  | none =>
      rw [hfec] at hm
      exact absurd hm (by simp)
  | some fec =>
      rw [hfec] at hm
      simp only [Option.some.injEq] at hm
      subst hm
      rfl

theorem parseOutput_serial_amended_witness :
    ((parseOutput (Json.obj []) "host" "sys" "40" "1" devEth).getD {}).serial =
      gjString (jget (Json.obj [])
        ["result", "output", "Module Info", "Vendor Serial Number"]) :=
  parseOutput_serial_amended "host" "sys" "40" "1" devEth (Json.obj [])
    ((parseOutput (Json.obj []) "host" "sys" "40" "1" devEth).getD {})
    (by with_unfolding_all decide)

/-- C9: the claim that parseOutput completes on every tool output is
the intent of the source (no failure is process-ending), but the code
slips: when the FEC histogram object is present and a bin has a values
array with fewer than two elements (likewise when a Bin i name is
missing), the unchecked index of element one panics.  The model records
the panic as none at this concrete payload. -/
theorem parseOutput_panics_on_short_fec_values :
    parseOutput jFecShortValues "host" "sys" "40" "1" devEth = none := by
  decide

/-- C2: on a non-zero tool exit, runMlxlink tolerates the failure
exactly when the status message of the tool contains one of the two
FEC-histogram explanations (inactive link, or unsupported on this
device); in the tolerated case it still parses the captured output and
answers with a non-error response carrying the parsed record, and in
every other non-zero-exit case it answers with an error response, which
the cycle drops. -/
theorem runMlxlink_tolerated_nonzero_exit (hostname systemserial slot port : String)
    (device : DeviceInfo) (mlxout : Json) :
    ((goContains (gjString (jget mlxout ["status", "message"]))
        "FEC Histogram is valid with active link operation only" = true ∨
      goContains (gjString (jget mlxout ["status", "message"]))
        "FEC Histogram is not supported for the current device" = true) →
      runMlxlink hostname systemserial slot port device mlxout true =
        (parseOutput mlxout hostname systemserial slot port device).map
          (fun m => { result := m, error := false })) ∧
    (goContains (gjString (jget mlxout ["status", "message"]))
        "FEC Histogram is valid with active link operation only" = false →
      goContains (gjString (jget mlxout ["status", "message"]))
        "FEC Histogram is not supported for the current device" = false →
      runMlxlink hostname systemserial slot port device mlxout true =
        some { result := {}, error := true }) := by
  constructor
  · intro h
    simp only [runMlxlink]
    rcases h with h | h <;> rw [h] <;> simp
  · intro h1 h2
    simp only [runMlxlink]
    rw [h1, h2]
    simp

theorem runMlxlink_tolerated_nonzero_exit_witness :
    runMlxlink "host" "sys" "40" "1" devEth jTolerated true =
      (parseOutput jTolerated "host" "sys" "40" "1" devEth).map
        (fun m => { result := m, error := false }) ∧
    (parseOutput jTolerated "host" "sys" "40" "1" devEth).isSome = true ∧
    runMlxlink "host" "sys" "40" "1" devEth jHardFail true =
      some { result := {}, error := true } :=
  ⟨(runMlxlink_tolerated_nonzero_exit "host" "sys" "40" "1" devEth jTolerated).1
     (Or.inr (by decide)),
   by decide,
   (runMlxlink_tolerated_nonzero_exit "host" "sys" "40" "1" devEth jHardFail).2
     (by decide) (by decide)⟩

/- Helper: mapM of an Option-valued function that succeeds on every
element. -/
theorem mapM_eq_map_of_some {α β : Type} (f : α → Option β) (g : α → β) (l : List α)
    (h : ∀ a ∈ l, f a = some (g a)) : l.mapM f = some (l.map g) := by
  induction l with
  | nil => rfl
  | cons a t ih =>
      rw [List.mapM_cons, h a (List.mem_cons_self a t),
        ih (fun x hx => h x (List.mem_cons_of_mem a hx))]
      rfl

/- Helper: the FEC block on a present, well-formed histogram object. -/
theorem parseFecErrors_obj (kvs : List (String × Json)) (n : ℕ)
    (hsz : jmapSize kvs = n + 1)
    (hwf : ∀ i, i < n → (fecBinElem kvs i).isSome = true) :
    parseFecErrors (some (Json.obj kvs)) = some ((List.range n).map (fecBinValue kvs)) := by
  simp only [parseFecErrors, jmapPairs]
  rw [hsz]
  rw [if_neg (by omega)]
  have hn : n + 1 - 1 = n := by omega
  rw [hn]
  apply mapM_eq_map_of_some
  intro i hi
  have hi2 : i < n := List.mem_range.mp hi
  rcases Option.isSome_iff_exists.mp (hwf i hi2) with ⟨v, hv⟩
  rw [hv]
  unfold fecBinValue
  rw [hv]

/-- C5: when the FEC histogram object is present with bins named Bin 0
up to Bin n-1 (the object holds one extra non-bin member) and each bin
has its element-one value, the decoded fecErrors array is ordered by
bin number and has length n; a bin whose value does not parse as a
number is recorded as -1 while every sibling bin keeps its parsed
value.  When the histogram object is absent, fecErrors is the
zero-length array. -/
theorem parseOutput_fec_histogram (hostname systemserial slot port : String)
    (device : DeviceInfo) :
    (∀ mlxout m,
      jget mlxout ["result", "output", "Histogram of FEC Errors"] = none →
      parseOutput mlxout hostname systemserial slot port device = some m →
      m.fecErrors = []) ∧
    (∀ mlxout kvs n m,
      jget mlxout ["result", "output", "Histogram of FEC Errors"] = some (Json.obj kvs) →
      jmapSize kvs = n + 1 →
      (∀ i, i < n → (fecBinElem kvs i).isSome = true) →
      parseOutput mlxout hostname systemserial slot port device = some m →
      m.fecErrors = (List.range n).map (fecBinValue kvs) ∧
      m.fecErrors.length = n ∧
      (∀ i, i < n →
        (goParseFloat? (gjString (fecBinElem kvs i)) = none →
          m.fecErrors.get? i = some (-1)) ∧
        (∀ x, goParseFloat? (gjString (fecBinElem kvs i)) = some x →
          m.fecErrors.get? i = some x))) := by
  constructor
  · intro mlxout m habs hm
    simp only [parseOutput] at hm
    rw [habs] at hm
    have hfe : parseFecErrors none = some [] := rfl
    rw [hfe] at hm
    simp only [Option.some.injEq] at hm
    subst hm
    rfl
  · intro mlxout kvs n m hpres hsz hwf hm
    simp only [parseOutput] at hm
    rw [hpres, parseFecErrors_obj kvs n hsz hwf] at hm
    simp only [Option.some.injEq] at hm
    subst hm
    refine ⟨rfl, by simp, ?_⟩
    intro i hi
    have hget : ((List.range n).map (fecBinValue kvs)).get? i = some (fecBinValue kvs i) := by
      rw [List.get?_map, List.get?_range hi]
      rfl
    rcases Option.isSome_iff_exists.mp (hwf i hi) with ⟨v, hv⟩
    constructor
    · intro hnone
      rw [hv] at hnone
      show ((List.range n).map (fecBinValue kvs)).get? i = some (-1)
      rw [hget]
      unfold fecBinValue
      rw [hv]
      show some (fecBinParsed v) = some (-1)
      unfold fecBinParsed
      rw [hnone]
    · intro x hx
      rw [hv] at hx
      show ((List.range n).map (fecBinValue kvs)).get? i = some x
      rw [hget]
      unfold fecBinValue
      rw [hv]
      show some (fecBinParsed v) = some x
      unfold fecBinParsed
      rw [hx]

theorem parseOutput_fec_histogram_witness :
    ((parseOutput (Json.obj []) "host" "sys" "40" "1" devEth).getD {}).fecErrors = [] ∧
    ((parseOutput jFecPresent "host" "sys" "40" "1" devEth).getD {}).fecErrors =
      [123, -1, 9] := by
  have h := parseOutput_fec_histogram "host" "sys" "40" "1" devEth
  refine ⟨h.1 (Json.obj []) _ rfl (by with_unfolding_all decide), ?_⟩
  have h2 := h.2 jFecPresent fecPresentPairs 3
    ((parseOutput jFecPresent "host" "sys" "40" "1" devEth).getD {})
    rfl (by decide) (by decide) (by with_unfolding_all decide)
  rw [h2.1]
  with_unfolding_all decide

/- Helper: the arbiter state after a history is the last completed
write, or the initial value when none occurred. -/
theorem cacheState_foldl (es : List CacheEvent) (init : List PortMetrics) :
    es.foldl cacheStep init = (es.filterMap writeVal).getLastD init := by
  induction es generalizing init with
  | nil => rfl
  | cons e t ih =>
      cases e with
      | read =>
          rw [List.foldl_cons]
          show t.foldl cacheStep init = _
          rw [ih init]
          rfl
      | write v =>
          rw [List.foldl_cons]
          show t.foldl cacheStep v = _
          rw [ih v]
          show (t.filterMap writeVal).getLastD v = ((v :: t.filterMap writeVal)).getLastD init
          rw [List.getLastD_cons]

/-- C10: for every serialized history of cache events (the channel
arbiter of the source serializes all reads and writes), a read returns
exactly the snapshot of the last write completed before it — hence a
whole snapshot published by a prior write (or the initial empty one),
never a mixture of generations and never a partial one — without
waiting on any later, in-flight cycle; and the generation observed
(number of completed writes) never decreases between an earlier and a
later point of the history, so successive reads never observe an older
snapshot. -/
theorem cache_reads_complete_and_monotone (es : List CacheEvent) (i k : ℕ)
    (hik : i ≤ k) :
    readResult es i = ((es.take i).filterMap writeVal).getLastD [] ∧
    (readResult es i = [] ∨ CacheEvent.write (readResult es i) ∈ es.take i) ∧
    writesThrough es i ≤ writesThrough es k := by
  have hA : readResult es i = ((es.take i).filterMap writeVal).getLastD [] :=
    cacheState_foldl _ _
  refine ⟨hA, ?_, ?_⟩
  · cases hl : (es.take i).filterMap writeVal with
    | nil =>
        left
        rw [hA, hl]
        rfl
    | cons a l =>
        right
        have hmem : ((es.take i).filterMap writeVal).getLastD [] ∈
            (es.take i).filterMap writeVal := by
          rw [hl, List.getLastD_cons]
          exact List.getLastD_mem_cons l a
        rw [hA]
        rcases List.mem_filterMap.mp hmem with ⟨e, he, hev⟩
        cases e with
        | read => exact absurd hev (by simp [writeVal])
        | write v =>
            have : v = ((es.take i).filterMap writeVal).getLastD [] := by
              simpa [writeVal] using hev
            rw [← this]
            exact he
  · unfold writesThrough
    rw [show es.take i = (es.take k).take i by rw [List.take_take, Nat.min_eq_left hik]]
    exact (List.Sublist.filterMap writeVal (List.take_sublist i (es.take k))).length_le

theorem cache_reads_complete_and_monotone_witness :
    readResult [CacheEvent.write [{ slot := "40" }], CacheEvent.read,
        CacheEvent.write [], CacheEvent.read] 2 =
      (([CacheEvent.write [{ slot := "40" }], CacheEvent.read,
        CacheEvent.write [], CacheEvent.read].take 2).filterMap writeVal).getLastD [] ∧
    (readResult [CacheEvent.write [{ slot := "40" }], CacheEvent.read,
        CacheEvent.write [], CacheEvent.read] 2 = [] ∨
      CacheEvent.write (readResult [CacheEvent.write [{ slot := "40" }], CacheEvent.read,
        CacheEvent.write [], CacheEvent.read] 2) ∈
        [CacheEvent.write [{ slot := "40" }], CacheEvent.read,
          CacheEvent.write [], CacheEvent.read].take 2) ∧
    writesThrough [CacheEvent.write [{ slot := "40" }], CacheEvent.read,
        CacheEvent.write [], CacheEvent.read] 2 ≤
      writesThrough [CacheEvent.write [{ slot := "40" }], CacheEvent.read,
        CacheEvent.write [], CacheEvent.read] 4 :=
  cache_reads_complete_and_monotone
    [CacheEvent.write [{ slot := "40" }], CacheEvent.read,
     CacheEvent.write [], CacheEvent.read] 2 4 (by decide)
